import Mathlib

/-!
Verification of the business-licensing requirements matching engine.

The definitions below are a shallow embedding of the `MatchingEngine`
class (validateBusinessProfile, getAllRequirements, applyMatchingRules,
matchesRuleCondition, matchesRequirementConditions,
groupRequirementsByAuthority, calculateSummary, estimateProcessingTime,
assessComplexityLevel, findApplicableRequirements, getRequirementDetails,
findRelatedRequirements, getProcessingTips).  JavaScript numbers are
embedded as `Int` (the engine only compares them), JavaScript objects of
boolean flags as association lists `List (String × Bool)`, and absent /
undefined fields as `Option`.  Thrown errors are embedded as
`Except String`.
-/

namespace Licensing

/-- Business profile as received by the engine.  The three scalar fields are
optional because the engine validates their presence itself; the three flag
namespaces are association lists (a JS object lookup of an absent key being
`undefined`, i.e. falsy, is `getD false`). -/
structure BusinessProfile where
  businessType : Option String
  seatingCapacity : Option Int
  floorArea : Option Int
  services : List (String × Bool)
  kitchenFeatures : List (String × Bool)
  operationalHours : List (String × Bool)
deriving DecidableEq, Repr

/-- An inclusive numeric range with optional bounds, as used by rule-level
`seatingCapacity` / `floorArea` condition clauses. -/
structure NumRange where
  min : Option Int
  max : Option Int
deriving DecidableEq, Repr

/-- A rule-level condition.  `requiredServices` is a key that may be present
in rule JSON but is never read by `matchesRuleCondition` (which only reads
`hasService`); it is carried here to state which keys the evaluator
inspects. -/
structure RuleCondition where
  businessType : Option String
  seatingCapacity : Option NumRange
  floorArea : Option NumRange
  hasService : Option (List String)
  requiredServices : Option (List String)
deriving DecidableEq, Repr

/-- Requirement-level conditions object.  `hasService` is a key that may be
present in requirement JSON but is never read by
`matchesRequirementConditions` (which only reads `requiredServices`); it is
carried here to state which keys the evaluator inspects.  Any present key
makes `Object.keys(conditions).length` non-zero. -/
structure ReqConditions where
  minSeatingCapacity : Option Int
  maxSeatingCapacity : Option Int
  minFloorArea : Option Int
  maxFloorArea : Option Int
  requiredServices : Option (List String)
  applicableBusinessTypes : Option (List String)
  hasService : Option (List String)
deriving DecidableEq, Repr

/-- A catalog requirement record.  `category` is optional: it is assigned by
`getAllRequirements` from the bucket the record came from, and the grouping
code defends against a missing or empty value. -/
structure Requirement where
  requirementId : String
  title : String
  description : String
  authority : String
  mandatory : Bool
  category : Option String
  conditions : Option ReqConditions
deriving DecidableEq, Repr

/-- A requirement as collected by `applyMatchingRules`: the spread of the
catalog record plus the `matchedByRule` provenance field. -/
structure MatchedRequirement where
  req : Requirement
  matchedByRule : String
deriving DecidableEq, Repr

/-- A business-licensing mapping rule. -/
structure Rule where
  ruleId : String
  condition : RuleCondition
  applicableRequirements : List String
deriving DecidableEq, Repr

/-- The loaded requirements data: four authority buckets of requirement
records plus the mapping rules. -/
structure Catalog where
  generalRequirements : List Requirement
  policeRequirements : List Requirement
  healthMinistryRequirements : List Requirement
  fireAuthorityRequirements : List Requirement
  rules : List Rule
deriving DecidableEq, Repr

/-- The projected requirement object pushed into an authority group by
`groupRequirementsByAuthority`. -/
structure ReqRow where
  requirementId : String
  title : String
  description : String
  authority : String
  mandatory : Bool
  matchedByRule : String
  conditions : ReqConditions
deriving DecidableEq, Repr

/-- The four fixed authority groups. -/
structure Grouped where
  general : List ReqRow
  police : List ReqRow
  health : List ReqRow
  fire : List ReqRow
deriving DecidableEq, Repr

/-- Summary statistics computed by `calculateSummary`.  `authorityCounts` is
the insertion-ordered association list built by the `reduce`. -/
structure Summary where
  totalRequirements : Nat
  mandatoryRequirements : Nat
  optionalRequirements : Nat
  authorityCounts : List (String × Nat)
  estimatedProcessingTime : String
  complexityLevel : String
deriving DecidableEq, Repr

/-- The result of `findApplicableRequirements` (without the `processedAt`
wall-clock timestamp). -/
structure MatchResult where
  businessProfile : BusinessProfile
  requirements : Grouped
  summary : Summary
deriving DecidableEq, Repr

/-- The result of `getRequirementDetails`. -/
structure DetailedRequirement where
  req : Requirement
  relatedRequirements : List Requirement
  processingTips : List String
deriving DecidableEq, Repr

/-- JS `x < m` where `x` may be `undefined`: `undefined < m` is `false`. -/
def jsLt : Option Int → Int → Bool
  | some v, m => decide (v < m)
  | none, _ => false

/-- JS `x > m` where `x` may be `undefined`: `undefined > m` is `false`. -/
def jsGt : Option Int → Int → Bool
  | some v, m => decide (v > m)
  | none, _ => false

/-- JS object lookup of a boolean flag: absent key is falsy. -/
def lookupFlag (l : List (String × Bool)) (s : String) : Bool :=
  ((l.find? (fun kv => kv.1 == s)).map (fun kv => kv.2)).getD false

/-- `(profile.services && profile.services[s]) || (profile.kitchenFeatures
&& ...) || (profile.operationalHours && ...)`: the merged capability-flag
lookup. -/
def hasFlag (p : BusinessProfile) (s : String) : Bool :=
  lookupFlag p.services s || lookupFlag p.kitchenFeatures s ||
    lookupFlag p.operationalHours s

/-- JS `list.includes(x)` where `x` may be `undefined`. -/
def optMem : Option String → List String → Bool
  | some s, l => l.contains s
  | none, _ => false

/-- The closed enum of valid business types. -/
def validBusinessTypes : List String :=
  ["restaurant", "cafe", "fast_food", "delivery_only",
   "catering", "food_truck", "bar_pub", "hotel_restaurant"]

/-- `validateBusinessProfile`: presence of the three required fields is
checked first (in order), then the enum, then the numeric ranges.  The
`typeof x !== 'number'` parts of the numeric checks are vacuous in this
embedding since present values are integers. -/
def validateBusinessProfile (p : BusinessProfile) : Except String Unit :=
  match p.businessType with
  | none => .error "Missing required field: businessType"
  | some bt =>
    match p.seatingCapacity with
    | none => .error "Missing required field: seatingCapacity"
    | some s =>
      match p.floorArea with
      | none => .error "Missing required field: floorArea"
      | some f =>
        if ¬ validBusinessTypes.contains bt then
          .error ("Invalid business type: " ++ bt)
        else if s < 0 then
          .error "Seating capacity must be a non-negative number"
        else if f ≤ 0 then
          .error "Floor area must be a positive number"
        else
          .ok ()

/-- `getAllRequirements`: flatten the four buckets, stamping each record
with its bucket's category. -/
def getAllRequirements (c : Catalog) : List Requirement :=
  c.generalRequirements.map (fun r => { r with category := some "general" }) ++
  c.policeRequirements.map (fun r => { r with category := some "police" }) ++
  c.healthMinistryRequirements.map (fun r => { r with category := some "health" }) ++
  c.fireAuthorityRequirements.map (fun r => { r with category := some "fire" })

/-- One `min` bound check: `if (x.min !== undefined && profile.v < x.min)
return false`. -/
def checkMin (v : Option Int) : Option Int → Bool
  | none => true
  | some m => !(jsLt v m)

/-- One `max` bound check: `if (x.max !== undefined && profile.v > x.max)
return false`. -/
def checkMax (v : Option Int) : Option Int → Bool
  | none => true
  | some m => !(jsGt v m)

/-- A whole optional `{min?, max?}` range clause. -/
def checkRange (v : Option Int) : Option NumRange → Bool
  | none => true
  | some r => checkMin v r.min && checkMax v r.max

/-- The required-capability-flags clause: every listed flag must resolve to
true across the merged namespaces.  (The JS `length > 0` guard is
behaviourally redundant: an empty list satisfies the loop vacuously.) -/
def checkFlags (p : BusinessProfile) : Option (List String) → Bool
  | none => true
  | some l => l.all (fun s => hasFlag p s)

/-- The rule-level `businessType` clause.  Note the JS truthiness guard on
`condition.businessType`: an empty-string value is falsy, so the clause is
skipped. -/
def checkBusinessTypeClause (pbt : Option String) : Option String → Bool
  | none => true
  | some bt => bt == "" || pbt == some bt

/-- The requirement-level `applicableBusinessTypes` clause: a present list
(even an empty one; `[]` is truthy in JS) must contain the profile's
businessType. -/
def checkBusinessTypeList (pbt : Option String) : Option (List String) → Bool
  | none => true
  | some l => optMem pbt l

/-- `matchesRuleCondition`. -/
def matchesRuleCondition (p : BusinessProfile) (c : RuleCondition) : Bool :=
  checkBusinessTypeClause p.businessType c.businessType &&
  checkRange p.seatingCapacity c.seatingCapacity &&
  checkRange p.floorArea c.floorArea &&
  checkFlags p c.hasService

/-- `Object.keys(conditions).length === 0` over the modelled keys. -/
def reqConditionsIsEmpty (cs : ReqConditions) : Bool :=
  cs.minSeatingCapacity.isNone && cs.maxSeatingCapacity.isNone &&
  cs.minFloorArea.isNone && cs.maxFloorArea.isNone &&
  cs.requiredServices.isNone && cs.applicableBusinessTypes.isNone &&
  cs.hasService.isNone

/-- `matchesRequirementConditions`.  A missing or empty `conditions` object
always applies; note that `conditions.applicableBusinessTypes` has no
length guard (a present empty list is truthy in JS and fails `includes`),
unlike `conditions.requiredServices`. -/
def matchesRequirementConditions (p : BusinessProfile) (r : Requirement) : Bool :=
  match r.conditions with
  | none => true
  | some cs =>
    if reqConditionsIsEmpty cs then true
    else
      checkMin p.seatingCapacity cs.minSeatingCapacity &&
      checkMax p.seatingCapacity cs.maxSeatingCapacity &&
      checkMin p.floorArea cs.minFloorArea &&
      checkMax p.floorArea cs.maxFloorArea &&
      checkFlags p cs.requiredServices &&
      checkBusinessTypeList p.businessType cs.applicableBusinessTypes

/-- Catalog lookup of a requirement record by id. -/
def findReq (allReqs : List Requirement) (reqId : String) : Option Requirement :=
  allReqs.find? (fun r => r.requirementId == reqId)

/-- The inner loop of `applyMatchingRules` for one matching rule: walk the
rule's `applicableRequirements`, resolve each id in the catalog, and push a
provenance-annotated copy unless the id is already collected or cannot be
resolved. -/
def collectIds (allReqs : List Requirement) (rid : String) :
    List String → List MatchedRequirement → List MatchedRequirement
  | [], acc => acc
  | reqId :: rest, acc =>
    match findReq allReqs reqId with
    | some r =>
      if acc.any (fun m => m.req.requirementId == reqId) then
        collectIds allReqs rid rest acc
      else
        collectIds allReqs rid rest (acc ++ [⟨r, rid⟩])
    | none => collectIds allReqs rid rest acc

/-- One iteration of the outer rule loop of `applyMatchingRules`. -/
def collectFromRule (p : BusinessProfile) (allReqs : List Requirement)
    (acc : List MatchedRequirement) (rule : Rule) : List MatchedRequirement :=
  if matchesRuleCondition p rule.condition then
    collectIds allReqs rule.ruleId rule.applicableRequirements acc
  else acc

/-- `applyMatchingRules`: collect requirements of all matching rules with
first-match-wins dedup, then filter by the requirement-level conditions. -/
def applyMatchingRules (p : BusinessProfile) (allReqs : List Requirement)
    (rules : List Rule) : List MatchedRequirement :=
  (rules.foldl (collectFromRule p allReqs) []).filter
    (fun m => matchesRequirementConditions p m.req)

/-- `req.category || 'general'`: missing or empty category falls back to
`"general"`. -/
def categoryKey (r : Requirement) : String :=
  match r.category with
  | none => "general"
  | some c => if c = "" then "general" else c

/-- The all-absent conditions object (`{}`). -/
def emptyReqConditions : ReqConditions :=
  ⟨none, none, none, none, none, none, none⟩

/-- The projection pushed into a group (`conditions: req.conditions || {}`). -/
def requirementRow (m : MatchedRequirement) : ReqRow :=
  ⟨m.req.requirementId, m.req.title, m.req.description, m.req.authority,
   m.req.mandatory, m.matchedByRule, m.req.conditions.getD emptyReqConditions⟩

/-- One `forEach` step of `groupRequirementsByAuthority`: push into the
bucket named by the category key if such a bucket exists
(`if (grouped[category])`), otherwise drop the requirement. -/
def groupStep (g : Grouped) (m : MatchedRequirement) : Grouped :=
  let cat := categoryKey m.req
  if cat = "general" then { g with general := g.general ++ [requirementRow m] }
  else if cat = "police" then { g with police := g.police ++ [requirementRow m] }
  else if cat = "health" then { g with health := g.health ++ [requirementRow m] }
  else if cat = "fire" then { g with fire := g.fire ++ [requirementRow m] }
  else g

/-- `groupRequirementsByAuthority`. -/
def groupRequirementsByAuthority (l : List MatchedRequirement) : Grouped :=
  l.foldl groupStep ⟨[], [], [], []⟩

/-- One step of the `reduce` building `authorityCounts`:
`acc[category] = (acc[category] || 0) + 1`. -/
def bump : List (String × Nat) → String → List (String × Nat)
  | [], k => [(k, 1)]
  | (k', n) :: rest, k =>
    if k' = k then (k', n + 1) :: rest else (k', n) :: bump rest k

/-- The `authorityCounts` association list of `calculateSummary`. -/
def authorityCountsList (l : List MatchedRequirement) : List (String × Nat) :=
  l.foldl (fun acc m => bump acc (categoryKey m.req)) []

/-- `estimateProcessingTime`. -/
def estimateProcessingTime (requirementCount : Nat) : String :=
  if requirementCount ≤ 3 then "1-2 weeks"
  else if requirementCount ≤ 6 then "2-4 weeks"
  else if requirementCount ≤ 10 then "4-8 weeks"
  else "8-12 weeks"

/-- `assessComplexityLevel`. -/
def assessComplexityLevel (totalCount mandatoryCount : Nat) : String :=
  if totalCount ≤ 4 ∧ mandatoryCount ≤ 3 then "Low"
  else if totalCount ≤ 8 ∧ mandatoryCount ≤ 6 then "Medium"
  else "High"

/-- `calculateSummary`. -/
def calculateSummary (l : List MatchedRequirement) : Summary :=
  let mandatoryCount := (l.filter (fun m => m.req.mandatory)).length
  let optionalCount := l.length - mandatoryCount
  { totalRequirements := l.length
    mandatoryRequirements := mandatoryCount
    optionalRequirements := optionalCount
    authorityCounts := authorityCountsList l
    estimatedProcessingTime := estimateProcessingTime l.length
    complexityLevel := assessComplexityLevel l.length mandatoryCount }

/-- `sanitizeBusinessProfile` (the flag namespaces are already total in this
embedding, so the `|| {}` defaults are identities). -/
def sanitizeBusinessProfile (p : BusinessProfile) : BusinessProfile :=
  { businessType := p.businessType
    seatingCapacity := p.seatingCapacity
    floorArea := p.floorArea
    services := p.services
    kitchenFeatures := p.kitchenFeatures
    operationalHours := p.operationalHours }

/-- The successful branch of `findApplicableRequirements`. -/
def computeMatchResult (c : Catalog) (p : BusinessProfile) : MatchResult :=
  let allReqs := getAllRequirements c
  let applicable := applyMatchingRules p allReqs c.rules
  { businessProfile := sanitizeBusinessProfile p
    requirements := groupRequirementsByAuthority applicable
    summary := calculateSummary applicable }

/-- `findApplicableRequirements`: validate, then compute; a validation
throw propagates and nothing else is computed. -/
def findApplicableRequirements (c : Catalog) (p : BusinessProfile) :
    Except String MatchResult :=
  match validateBusinessProfile p with
  | .error e => .error e
  | .ok _ => .ok (computeMatchResult c p)

/-- `findRelatedRequirements`: same authority, excluding the record itself,
first three in catalog order. -/
def findRelatedRequirements (c : Catalog) (r : Requirement) : List Requirement :=
  ((getAllRequirements c).filter
    (fun q => q.requirementId != r.requirementId && q.authority == r.authority)).take 3

/-- `getProcessingTips`: static text keyed by authority name. -/
def getProcessingTips (r : Requirement) : List String :=
  (if r.authority = "משטרת ישראל" then
    ["יש להגיש בקשה לתחנת משטרה המקומית",
     "תהליך הבדיקה עשוי לקחת 2-4 שבועות"]
   else []) ++
  (if r.authority = "משרד הבריאות" then
    ["נדרש ביקור של פקח משרד הבריאות במקום",
     "חשוב לוודא תקינות מערכות המים והתברואה"]
   else []) ++
  (if r.authority = "מכבי האש וההצלה הארצי" then
    ["נדרש מדידה מקצועית של מערכות הבטיחות",
     "חשוב להכין תוכניות אדריכליות עדכניות"]
   else [])

/-- `getRequirementDetails`. -/
def getRequirementDetails (c : Catalog) (reqId : String) :
    Except String DetailedRequirement :=
  match findReq (getAllRequirements c) reqId with
  | none => .error ("Requirement not found: " ++ reqId)
  | some r => .ok ⟨r, findRelatedRequirements c r, getProcessingTips r⟩

/-! Specification-side definitions, used only in theorem statements. -/

/-- The requirement ids of a collected list, in order. -/
def idsOf (l : List MatchedRequirement) : List String :=
  l.map (fun m => m.req.requirementId)

/-- A rule selects a requirement id when its condition holds against the
profile and its `applicableRequirements` list contains the id. -/
def selects (p : BusinessProfile) (rule : Rule) (reqId : String) : Bool :=
  matchesRuleCondition p rule.condition &&
    rule.applicableRequirements.contains reqId

/-- The `ruleId` of the first rule, in catalog rule order, that selects the
given requirement id against the profile. -/
def firstSelector (p : BusinessProfile) (rules : List Rule) (reqId : String) :
    Option String :=
  ((rules.filter (fun rule => selects p rule reqId)).head?).map
    (fun rule => rule.ruleId)

/-- Spec reading of a rule-level condition, for a profile whose scalar
fields are `bt` / `s` / `f`: every clause present in the condition must
hold — equality for `businessType`, inclusive bounds for the two ranges
(an absent bound unconstrained), and every listed capability flag must
resolve to true across the merged namespaces. -/
def ruleConditionSpecHolds (p : BusinessProfile) (c : RuleCondition)
    (bt : String) (s f : Int) : Prop :=
  (∀ b, c.businessType = some b → b = bt) ∧
  (∀ r m, c.seatingCapacity = some r → r.min = some m → m ≤ s) ∧
  (∀ r m, c.seatingCapacity = some r → r.max = some m → s ≤ m) ∧
  (∀ r m, c.floorArea = some r → r.min = some m → m ≤ f) ∧
  (∀ r m, c.floorArea = some r → r.max = some m → f ≤ m) ∧
  (∀ l, c.hasService = some l → ∀ name ∈ l, hasFlag p name = true)

/-- A profile that is invalid in one of the ways the spec enumerates. -/
def invalidProfile (p : BusinessProfile) : Prop :=
  p.businessType = none ∨ p.seatingCapacity = none ∨ p.floorArea = none ∨
  (∃ bt, p.businessType = some bt ∧ bt ∉ validBusinessTypes) ∨
  (∃ s, p.seatingCapacity = some s ∧ s < 0) ∨
  (∃ f, p.floorArea = some f ∧ f ≤ 0)

/-- The error message names a field of the profile that actually offends:
each possible validation message is tied to the violation it reports. -/
def msgNamesOffendingField (p : BusinessProfile) (msg : String) : Prop :=
  (msg = "Missing required field: businessType" ∧ p.businessType = none) ∨
  (msg = "Missing required field: seatingCapacity" ∧ p.seatingCapacity = none) ∨
  (msg = "Missing required field: floorArea" ∧ p.floorArea = none) ∨
  (∃ bt, msg = "Invalid business type: " ++ bt ∧ p.businessType = some bt ∧
    bt ∉ validBusinessTypes) ∨
  (msg = "Seating capacity must be a non-negative number" ∧
    ∃ s, p.seatingCapacity = some s ∧ s < 0) ∨
  (msg = "Floor area must be a positive number" ∧
    ∃ f, p.floorArea = some f ∧ f ≤ 0)

/-- The rows of a group, described as an order-preserving filter of the
collected list by category key. -/
def rowsWithCategory (l : List MatchedRequirement) (k : String) : List ReqRow :=
  (l.filter (fun m => categoryKey m.req == k)).map requirementRow

/-- All rows of a grouped result, in group order. -/
def allRows (g : Grouped) : List ReqRow :=
  g.general ++ g.police ++ g.health ++ g.fire

/-- `sum(authorityCounts.values())`. -/
def sumCounts (l : List (String × Nat)) : Nat :=
  (l.map (fun kv => kv.2)).sum

/-- The catalog with every occurrence of one requirement id removed from
every rule's `applicableRequirements` list. -/
def removeRuleReferences (c : Catalog) (reqId : String) : Catalog :=
  { c with rules := c.rules.map (fun rule =>
      { rule with applicableRequirements :=
          rule.applicableRequirements.filter (fun i => i != reqId) }) }

/-! Concrete sample data for witnesses and counterexamples. -/

/-- A valid sample profile. -/
def sampleProfile : BusinessProfile :=
  ⟨some "restaurant", some 10, some 50,
   [("alcoholService", true)], [("gasUsage", true)], []⟩

/-- A profile missing its businessType. -/
def missingTypeProfile : BusinessProfile :=
  ⟨none, some 10, some 50, [], [], []⟩

/-- A sample unconditional catalog requirement. -/
def sampleReqGeneral : Requirement :=
  ⟨"GEN-001", "t", "d", "עירייה", true, none, none⟩

/-- A sample requirement restricted to restaurants and cafes. -/
def sampleReqHealth : Requirement :=
  ⟨"HLT-001", "t2", "d2", "משרד הבריאות", false, none,
   some ⟨none, none, none, none, none, some ["restaurant", "cafe"], none⟩⟩

/-- A sample requirement requiring at least 20 seats. -/
def sampleReqPolice : Requirement :=
  ⟨"POL-001", "t3", "d3", "משטרת ישראל", true, none,
   some ⟨some 20, none, none, none, none, none, none⟩⟩

/-- A sample unconditional rule that also references an id absent from the
catalog. -/
def sampleRule1 : Rule :=
  ⟨"R1", ⟨none, none, none, none, none⟩, ["GEN-001", "HLT-001", "ZZZ-9"]⟩

/-- A sample conditional rule re-referencing `GEN-001`. -/
def sampleRule2 : Rule :=
  ⟨"R2", ⟨some "restaurant", none, none, some ["alcoholService"], none⟩,
   ["POL-001", "GEN-001"]⟩

/-- A small sample catalog. -/
def sampleCatalog : Catalog :=
  ⟨[sampleReqGeneral], [sampleReqPolice], [sampleReqHealth], [],
   [sampleRule1, sampleRule2]⟩

/-- A collected requirement carrying an unrecognized category. -/
def unknownCategoryReq : MatchedRequirement :=
  ⟨⟨"GEN-001", "t", "d", "a", true, some "zoning", none⟩, "R1"⟩

/-- A sample rule condition with businessType and seating clauses. -/
def sampleCondition : RuleCondition :=
  ⟨some "restaurant", some ⟨some 5, some 80⟩, none, some ["alcoholService"], none⟩

/-! Clause-level lemmas. -/

lemma checkMin_eq_true {v : Option Int} {x : Option Int} :
    checkMin v x = true ↔ ∀ m, x = some m → jsLt v m = false := by
  cases x <;> simp [checkMin]

lemma checkMax_eq_true {v : Option Int} {x : Option Int} :
    checkMax v x = true ↔ ∀ m, x = some m → jsGt v m = false := by
  cases x <;> simp [checkMax]

lemma checkFlags_eq_true {p : BusinessProfile} {x : Option (List String)} :
    checkFlags p x = true ↔ ∀ l, x = some l → ∀ s ∈ l, hasFlag p s = true := by
  cases x <;> simp [checkFlags, List.all_eq_true]

lemma checkMin_some_iff {v : Int} {x : Option Int} :
    checkMin (some v) x = true ↔ ∀ m, x = some m → m ≤ v := by
  cases x with
  | none => simp [checkMin]
  | some m => simp [checkMin, jsLt]

lemma checkMax_some_iff {v : Int} {x : Option Int} :
    checkMax (some v) x = true ↔ ∀ m, x = some m → v ≤ m := by
  cases x with
  | none => simp [checkMax]
  | some m => simp [checkMax, jsGt]

lemma checkRange_some_iff {v : Int} {x : Option NumRange} :
    checkRange (some v) x = true ↔
      (∀ r m, x = some r → r.min = some m → m ≤ v) ∧
      (∀ r m, x = some r → r.max = some m → v ≤ m) := by
  cases x with
  | none => simp [checkRange]
  | some r =>
    simp only [checkRange, Bool.and_eq_true, checkMin_some_iff,
      checkMax_some_iff, Option.some.injEq]
    constructor
    · rintro ⟨h1, h2⟩
      refine ⟨?_, ?_⟩ <;> rintro r' m rfl hm
      · exact h1 m hm
      · exact h2 m hm
    · rintro ⟨h1, h2⟩
      exact ⟨fun m hm => h1 r m rfl hm, fun m hm => h2 r m rfl hm⟩

lemma checkBusinessTypeClause_iff {p : BusinessProfile} {c : RuleCondition}
    {bt : String} (hbt : p.businessType = some bt)
    (hne : c.businessType ≠ some "") :
    checkBusinessTypeClause p.businessType c.businessType = true ↔
      ∀ b, c.businessType = some b → b = bt := by
  cases hcb : c.businessType with
  | none => simp [checkBusinessTypeClause]
  | some b =>
    have hb : ¬ b = "" := fun h => hne (by rw [hcb, h])
    simp [checkBusinessTypeClause, hbt, hb]
    exact eq_comm

/-- C2: the rule-level condition evaluator returns true iff every clause
present in the condition holds: businessType equality, inclusive
seating-capacity and floor-area bounds with absent bounds unconstrained,
and every `hasService` flag resolving to true across the merged
namespaces; a condition with no clauses is satisfied by every profile. -/
theorem rule_condition_evaluator_spec (p : BusinessProfile)
    (c : RuleCondition) (bt : String) (s f : Int)
    (hbt : p.businessType = some bt) (hs : p.seatingCapacity = some s)
    (hf : p.floorArea = some f) (hne : c.businessType ≠ some "") :
    (matchesRuleCondition p c = true ↔ ruleConditionSpecHolds p c bt s f) ∧
    matchesRuleCondition p ⟨none, none, none, none, none⟩ = true := by
  constructor
  · unfold matchesRuleCondition ruleConditionSpecHolds
    rw [hs, hf]
    simp only [Bool.and_eq_true]
    rw [checkBusinessTypeClause_iff hbt hne, checkRange_some_iff,
      checkRange_some_iff, checkFlags_eq_true]
    tauto
  · rfl

/-- C2 witness: the iff evaluated at the sample profile and condition. -/
theorem rule_condition_evaluator_spec_witness :
    sampleProfile.businessType = some "restaurant" ∧
    sampleProfile.seatingCapacity = some 10 ∧
    sampleProfile.floorArea = some 50 ∧
    sampleCondition.businessType ≠ some "" ∧
    ((matchesRuleCondition sampleProfile sampleCondition = true ↔
        ruleConditionSpecHolds sampleProfile sampleCondition "restaurant" 10 50) ∧
      matchesRuleCondition sampleProfile ⟨none, none, none, none, none⟩ = true) :=
  ⟨rfl, rfl, rfl, by decide,
    rule_condition_evaluator_spec sampleProfile sampleCondition
      "restaurant" 10 50 rfl rfl rfl (by decide)⟩

/-! Validation lemmas. -/

lemma validate_ok_iff {p : BusinessProfile} :
    validateBusinessProfile p = .ok () ↔
      ∃ bt s f, p.businessType = some bt ∧ p.seatingCapacity = some s ∧
        p.floorArea = some f ∧ bt ∈ validBusinessTypes ∧ 0 ≤ s ∧ 0 < f := by
  cases hb : p.businessType with
  | none => simp [validateBusinessProfile, hb]
  | some bt =>
    cases hsc : p.seatingCapacity with
    | none => simp [validateBusinessProfile, hb, hsc]
    | some s =>
      cases hfa : p.floorArea with
      | none => simp [validateBusinessProfile, hb, hsc, hfa]
      | some f =>
        simp only [validateBusinessProfile, hb, hsc, hfa]
        split_ifs with h1 h2 h3 <;>
          simp_all [List.contains, List.elem_iff]

lemma validate_error_names {p : BusinessProfile} {msg : String}
    (h : validateBusinessProfile p = .error msg) :
    msgNamesOffendingField p msg := by
  unfold msgNamesOffendingField
  cases hb : p.businessType with
  | none => simp only [validateBusinessProfile, hb] at h; simp at h; tauto
  | some bt =>
    cases hsc : p.seatingCapacity with
    | none =>
      simp only [validateBusinessProfile, hb, hsc] at h; simp at h; tauto
    | some s =>
      cases hfa : p.floorArea with
      | none =>
        simp only [validateBusinessProfile, hb, hsc, hfa] at h
        simp at h; tauto
      | some f =>
        simp only [validateBusinessProfile, hb, hsc, hfa] at h
        split_ifs at h with h1 h2 h3 <;> simp at h <;>
          first
            | exact Or.inr (Or.inr (Or.inr (Or.inl
                ⟨bt, h.symm, rfl,
                  by simpa [List.contains, List.elem_iff] using h1⟩)))
            | exact Or.inr (Or.inr (Or.inr (Or.inr (Or.inl
                ⟨h.symm, s, rfl, by omega⟩))))
            | exact Or.inr (Or.inr (Or.inr (Or.inr (Or.inr
                ⟨h.symm, f, rfl, by omega⟩))))

/-- C3: an invalid profile (missing field, out-of-enum businessType,
negative seatingCapacity, or non-positive floorArea) makes
`findApplicableRequirements` fail with a validation error whose message
names an offending field; no result is produced. -/
theorem validation_rejects_invalid (c : Catalog) (p : BusinessProfile)
    (h : invalidProfile p) :
    ∃ msg, findApplicableRequirements c p = .error msg ∧
      msgNamesOffendingField p msg := by
  have hnok : validateBusinessProfile p ≠ .ok () := by
    intro hok
    obtain ⟨bt, s, f, hbt, hsc, hfa, henum, hsnn, hfpos⟩ :=
      validate_ok_iff.mp hok
    rcases h with h | h | h | ⟨bt', h', hmem⟩ | ⟨s', h', hneg⟩ | ⟨f', h', hle⟩ <;>
      simp_all <;> omega
  cases he : validateBusinessProfile p with
  | ok u => cases u; exact absurd he hnok
  | error e =>
    refine ⟨e, ?_, validate_error_names he⟩
    unfold findApplicableRequirements
    rw [he]

/-- C3 witness: a profile with its businessType missing. -/
theorem validation_rejects_invalid_witness :
    invalidProfile missingTypeProfile ∧
    ∃ msg,
      findApplicableRequirements sampleCatalog missingTypeProfile =
          .error msg ∧
        msgNamesOffendingField missingTypeProfile msg :=
  ⟨Or.inl rfl,
    validation_rejects_invalid sampleCatalog missingTypeProfile (Or.inl rfl)⟩

/-! The successful path of `findApplicableRequirements`. -/

lemma findApplicable_ok {c : Catalog} {p : BusinessProfile}
    (h : validateBusinessProfile p = .ok ()) :
    findApplicableRequirements c p = .ok (computeMatchResult c p) := by
  unfold findApplicableRequirements
  rw [h]

/-! Summary-level lemmas. -/

lemma assess_low_iff (t m : Nat) :
    (assessComplexityLevel t m = "Low" ↔ t ≤ 4 ∧ m ≤ 3) := by
  unfold assessComplexityLevel
  have h1 : "Medium" ≠ "Low" := by decide
  have h2 : "High" ≠ "Low" := by decide
  split_ifs with ha hb <;> simp_all

lemma assess_medium_iff (t m : Nat) :
    (assessComplexityLevel t m = "Medium" ↔
      ¬(t ≤ 4 ∧ m ≤ 3) ∧ (t ≤ 8 ∧ m ≤ 6)) := by
  unfold assessComplexityLevel
  have h1 : "Low" ≠ "Medium" := by decide
  have h2 : "High" ≠ "Medium" := by decide
  split_ifs with ha hb <;> simp_all

lemma assess_high_iff (t m : Nat) :
    (assessComplexityLevel t m = "High" ↔
      ¬(t ≤ 4 ∧ m ≤ 3) ∧ ¬(t ≤ 8 ∧ m ≤ 6)) := by
  unfold assessComplexityLevel
  have h1 : "Low" ≠ "High" := by decide
  have h2 : "Medium" ≠ "High" := by decide
  split_ifs with ha hb <;> simp_all

/-- C5: the summary's estimated processing time is the stated step function
of totalRequirements, and the complexity level is "Low" exactly when
totalRequirements ≤ 4 and mandatoryRequirements ≤ 3, "Medium" when not Low
but totalRequirements ≤ 8 and mandatoryRequirements ≤ 6, else "High". -/
theorem summary_step_functions (c : Catalog) (p : BusinessProfile)
    (hv : validateBusinessProfile p = .ok ()) :
    findApplicableRequirements c p = .ok (computeMatchResult c p) ∧
    ((computeMatchResult c p).summary.estimatedProcessingTime =
      if (computeMatchResult c p).summary.totalRequirements ≤ 3 then "1-2 weeks"
      else if (computeMatchResult c p).summary.totalRequirements ≤ 6 then "2-4 weeks"
      else if (computeMatchResult c p).summary.totalRequirements ≤ 10 then "4-8 weeks"
      else "8-12 weeks") ∧
    ((computeMatchResult c p).summary.complexityLevel = "Low" ↔
      (computeMatchResult c p).summary.totalRequirements ≤ 4 ∧
      (computeMatchResult c p).summary.mandatoryRequirements ≤ 3) ∧
    ((computeMatchResult c p).summary.complexityLevel = "Medium" ↔
      ¬((computeMatchResult c p).summary.totalRequirements ≤ 4 ∧
        (computeMatchResult c p).summary.mandatoryRequirements ≤ 3) ∧
      ((computeMatchResult c p).summary.totalRequirements ≤ 8 ∧
        (computeMatchResult c p).summary.mandatoryRequirements ≤ 6)) ∧
    ((computeMatchResult c p).summary.complexityLevel = "High" ↔
      ¬((computeMatchResult c p).summary.totalRequirements ≤ 4 ∧
        (computeMatchResult c p).summary.mandatoryRequirements ≤ 3) ∧
      ¬((computeMatchResult c p).summary.totalRequirements ≤ 8 ∧
        (computeMatchResult c p).summary.mandatoryRequirements ≤ 6)) := by
  refine ⟨findApplicable_ok hv, ?_, ?_, ?_, ?_⟩ <;>
    simp only [computeMatchResult, calculateSummary] <;>
    first
      | rfl
      | apply assess_low_iff
      | apply assess_medium_iff
      | apply assess_high_iff

/-- C5 witness: the summary properties at the sample catalog and profile. -/
theorem summary_step_functions_witness :
    validateBusinessProfile sampleProfile = .ok () ∧
    (findApplicableRequirements sampleCatalog sampleProfile =
        .ok (computeMatchResult sampleCatalog sampleProfile) ∧
      ((computeMatchResult sampleCatalog sampleProfile).summary.estimatedProcessingTime =
        if (computeMatchResult sampleCatalog sampleProfile).summary.totalRequirements ≤ 3 then "1-2 weeks"
        else if (computeMatchResult sampleCatalog sampleProfile).summary.totalRequirements ≤ 6 then "2-4 weeks"
        else if (computeMatchResult sampleCatalog sampleProfile).summary.totalRequirements ≤ 10 then "4-8 weeks"
        else "8-12 weeks") ∧
      ((computeMatchResult sampleCatalog sampleProfile).summary.complexityLevel = "Low" ↔
        (computeMatchResult sampleCatalog sampleProfile).summary.totalRequirements ≤ 4 ∧
        (computeMatchResult sampleCatalog sampleProfile).summary.mandatoryRequirements ≤ 3) ∧
      ((computeMatchResult sampleCatalog sampleProfile).summary.complexityLevel = "Medium" ↔
        ¬((computeMatchResult sampleCatalog sampleProfile).summary.totalRequirements ≤ 4 ∧
          (computeMatchResult sampleCatalog sampleProfile).summary.mandatoryRequirements ≤ 3) ∧
        ((computeMatchResult sampleCatalog sampleProfile).summary.totalRequirements ≤ 8 ∧
          (computeMatchResult sampleCatalog sampleProfile).summary.mandatoryRequirements ≤ 6)) ∧
      ((computeMatchResult sampleCatalog sampleProfile).summary.complexityLevel = "High" ↔
        ¬((computeMatchResult sampleCatalog sampleProfile).summary.totalRequirements ≤ 4 ∧
          (computeMatchResult sampleCatalog sampleProfile).summary.mandatoryRequirements ≤ 3) ∧
        ¬((computeMatchResult sampleCatalog sampleProfile).summary.totalRequirements ≤ 8 ∧
          (computeMatchResult sampleCatalog sampleProfile).summary.mandatoryRequirements ≤ 6))) :=
  ⟨rfl, summary_step_functions sampleCatalog sampleProfile rfl⟩

/-! Requirement-level condition characterization. -/

lemma reqConditionsIsEmpty_iff {cs : ReqConditions} :
    reqConditionsIsEmpty cs = true ↔
      cs.minSeatingCapacity = none ∧ cs.maxSeatingCapacity = none ∧
      cs.minFloorArea = none ∧ cs.maxFloorArea = none ∧
      cs.requiredServices = none ∧ cs.applicableBusinessTypes = none ∧
      cs.hasService = none := by
  simp [reqConditionsIsEmpty, Option.isNone_iff_eq_none, Bool.and_eq_true,
    and_assoc]

lemma matchesReqCond_some_iff {p : BusinessProfile} {r : Requirement}
    {cs : ReqConditions} (h : r.conditions = some cs) :
    matchesRequirementConditions p r = true ↔
      (checkMin p.seatingCapacity cs.minSeatingCapacity = true ∧
       checkMax p.seatingCapacity cs.maxSeatingCapacity = true ∧
       checkMin p.floorArea cs.minFloorArea = true ∧
       checkMax p.floorArea cs.maxFloorArea = true ∧
       checkFlags p cs.requiredServices = true ∧
       checkBusinessTypeList p.businessType cs.applicableBusinessTypes = true) := by
  unfold matchesRequirementConditions
  rw [h]
  by_cases hE : reqConditionsIsEmpty cs = true
  · obtain ⟨h1, h2, h3, h4, h5, h6, _⟩ := reqConditionsIsEmpty_iff.mp hE
    simp [hE, h1, h2, h3, h4, h5, h6, checkMin, checkMax, checkFlags,
      checkBusinessTypeList]
  · simp [hE, Bool.and_eq_true, and_assoc]

/-- C10: the rule-level evaluator ignores a `requiredServices` key, the
requirement-level evaluator ignores a `hasService` key, and a rule
condition whose only key is `requiredServices` is satisfied by every
profile — the two spellings are not interchangeable between the two
levels. -/
theorem condition_key_sensitivity :
    (∀ (p : BusinessProfile) (c : RuleCondition) (rs : Option (List String)),
        matchesRuleCondition p { c with requiredServices := rs } =
          matchesRuleCondition p c) ∧
    (∀ (p : BusinessProfile) (r : Requirement) (cs : ReqConditions)
        (o : Option (List String)),
        matchesRequirementConditions p
            { r with conditions := some { cs with hasService := o } } =
          matchesRequirementConditions p
            { r with conditions := some { cs with hasService := none } }) ∧
    (∀ (p : BusinessProfile) (l : List String),
        matchesRuleCondition p ⟨none, none, none, none, some l⟩ = true) := by
  refine ⟨fun p c rs => rfl, ?_, fun p l => rfl⟩
  intro p r cs o
  have hL := @matchesReqCond_some_iff p
    { r with conditions := some { cs with hasService := o } }
    { cs with hasService := o } rfl
  have hR := @matchesReqCond_some_iff p
    { r with conditions := some { cs with hasService := none } }
    { cs with hasService := none } rfl
  have : matchesRequirementConditions p
      { r with conditions := some { cs with hasService := o } } = true ↔
    matchesRequirementConditions p
      { r with conditions := some { cs with hasService := none } } = true := by
    rw [hL, hR]
  cases hb : matchesRequirementConditions p
      { r with conditions := some { cs with hasService := o } } with
  | true => exact (this.mp hb).symm ▸ rfl
  | false =>
    cases hb' : matchesRequirementConditions p
        { r with conditions := some { cs with hasService := none } } with
    | false => rfl
    | true => exact absurd (this.mpr hb') (by simp [hb])

/-! Grouping lemmas. -/

lemma foldl_groupStep (l : List MatchedRequirement) (g : Grouped) :
    l.foldl groupStep g =
      ⟨g.general ++ rowsWithCategory l "general",
       g.police ++ rowsWithCategory l "police",
       g.health ++ rowsWithCategory l "health",
       g.fire ++ rowsWithCategory l "fire"⟩ := by
  induction l generalizing g with
  | nil => cases g; simp [rowsWithCategory]
  | cons m rest ih =>
    rw [List.foldl_cons, ih]
    unfold rowsWithCategory
    rw [List.filter_cons, List.filter_cons, List.filter_cons, List.filter_cons]
    by_cases h1 : categoryKey m.req = "general"
    · simp [groupStep, h1]
    · by_cases h2 : categoryKey m.req = "police"
      · simp [groupStep, h1, h2]
      · by_cases h3 : categoryKey m.req = "health"
        · simp [groupStep, h1, h2, h3]
        · by_cases h4 : categoryKey m.req = "fire"
          · simp [groupStep, h1, h2, h3, h4]
          · simp [groupStep, h1, h2, h3, h4]

/-- The grouping function described as four order-preserving filters. -/
lemma grouping_eq_filters (l : List MatchedRequirement) :
    groupRequirementsByAuthority l =
      ⟨rowsWithCategory l "general", rowsWithCategory l "police",
       rowsWithCategory l "health", rowsWithCategory l "fire"⟩ := by
  unfold groupRequirementsByAuthority
  rw [foldl_groupStep]
  simp

/-- C6 counterexample: a requirement whose category is the unrecognized
string "zoning" is not placed in the "general" group — it is dropped from
every group, so the claim's default-to-general behaviour for unknown
categories does not hold. -/
theorem grouping_unknown_category_dropped :
    unknownCategoryReq.req.category = some "zoning" ∧
    requirementRow unknownCategoryReq ∉
      (groupRequirementsByAuthority [unknownCategoryReq]).general ∧
    groupRequirementsByAuthority [unknownCategoryReq] = ⟨[], [], [], []⟩ := by
  decide

/-- C6 (amended): grouping buckets each requirement by its category key
into the four fixed groups, preserving discovery order within each group; a
requirement with a missing (or empty) category is placed in the "general"
group, while a requirement with an unrecognized non-empty category is
dropped from all groups. -/
theorem grouping_by_category (l : List MatchedRequirement) :
    groupRequirementsByAuthority l =
      ⟨rowsWithCategory l "general", rowsWithCategory l "police",
       rowsWithCategory l "health", rowsWithCategory l "fire"⟩ ∧
    (∀ m ∈ l, m.req.category = none → categoryKey m.req = "general") :=
  ⟨grouping_eq_filters l, fun _ _ h => by simp [categoryKey, h]⟩

/-! Summary counting lemmas. -/

lemma sumCounts_bump (acc : List (String × Nat)) (k : String) :
    sumCounts (bump acc k) = sumCounts acc + 1 := by
  induction acc with
  | nil => simp [bump, sumCounts]
  | cons kv rest ih =>
    obtain ⟨k', n⟩ := kv
    by_cases h : k' = k <;> simp [bump, h, sumCounts] at ih ⊢ <;> omega

lemma sumCounts_authorityCounts (l : List MatchedRequirement) :
    sumCounts (authorityCountsList l) = l.length := by
  suffices h : ∀ acc, sumCounts
      (l.foldl (fun acc m => bump acc (categoryKey m.req)) acc) =
      sumCounts acc + l.length by
    simpa [authorityCountsList, sumCounts] using h []
  induction l with
  | nil => intro acc; simp
  | cons m rest ih =>
    intro acc
    rw [List.foldl_cons, ih, sumCounts_bump]
    simp [List.length_cons]
    omega

/-- C8: in the summary, mandatory plus optional counts equal the total, and
the values of authorityCounts sum to the total. -/
theorem summary_consistency (c : Catalog) (p : BusinessProfile)
    (hv : validateBusinessProfile p = .ok ()) :
    findApplicableRequirements c p = .ok (computeMatchResult c p) ∧
    (computeMatchResult c p).summary.mandatoryRequirements +
        (computeMatchResult c p).summary.optionalRequirements =
      (computeMatchResult c p).summary.totalRequirements ∧
    sumCounts (computeMatchResult c p).summary.authorityCounts =
      (computeMatchResult c p).summary.totalRequirements := by
  refine ⟨findApplicable_ok hv, ?_, ?_⟩ <;>
    simp only [computeMatchResult, calculateSummary]
  · have := List.length_filter_le (fun m => m.req.mandatory)
      (applyMatchingRules p (getAllRequirements c) c.rules)
    omega
  · exact sumCounts_authorityCounts _

/-- C8 witness: summary consistency at the sample catalog and profile. -/
theorem summary_consistency_witness :
    validateBusinessProfile sampleProfile = .ok () ∧
    (findApplicableRequirements sampleCatalog sampleProfile =
        .ok (computeMatchResult sampleCatalog sampleProfile) ∧
      (computeMatchResult sampleCatalog sampleProfile).summary.mandatoryRequirements +
          (computeMatchResult sampleCatalog sampleProfile).summary.optionalRequirements =
        (computeMatchResult sampleCatalog sampleProfile).summary.totalRequirements ∧
      sumCounts (computeMatchResult sampleCatalog sampleProfile).summary.authorityCounts =
        (computeMatchResult sampleCatalog sampleProfile).summary.totalRequirements) :=
  ⟨rfl, summary_consistency sampleCatalog sampleProfile rfl⟩

/-! Requirement-detail lookup. -/

/-- C9: `getRequirementDetails` fails with the not-found error exactly when
the id is absent from the catalog; on success it returns the found record
augmented with at most three related requirements — the first three other
catalog records sharing the record's authority, in catalog order — plus the
authority-keyed processing tips. -/
theorem requirement_details_lookup (c : Catalog) (reqId : String) :
    ((∀ r ∈ getAllRequirements c, r.requirementId ≠ reqId) ↔
      getRequirementDetails c reqId =
        .error ("Requirement not found: " ++ reqId)) ∧
    (∀ d, getRequirementDetails c reqId = .ok d →
      d.req.requirementId = reqId ∧ d.req ∈ getAllRequirements c ∧
      d.relatedRequirements =
        ((getAllRequirements c).filter
          (fun q => q.requirementId != reqId &&
            q.authority == d.req.authority)).take 3 ∧
      d.relatedRequirements.length ≤ 3 ∧
      (∀ q ∈ d.relatedRequirements,
        q.requirementId ≠ reqId ∧ q.authority = d.req.authority) ∧
      d.processingTips = getProcessingTips d.req) := by
  cases hf : findReq (getAllRequirements c) reqId with
  | none =>
    have hf' : List.find? (fun q => q.requirementId == reqId)
        (getAllRequirements c) = none := by simpa [findReq] using hf
    refine ⟨⟨fun _ => by simp [getRequirementDetails, hf], fun _ => ?_⟩,
      fun d hd => by simp [getRequirementDetails, hf] at hd⟩
    intro rr hrr
    simpa using List.find?_eq_none.mp hf' rr hrr
  | some r =>
    have hf' : List.find? (fun q => q.requirementId == reqId)
        (getAllRequirements c) = some r := by simpa [findReq] using hf
    have hpred := List.find?_some hf'
    have hmem : r ∈ getAllRequirements c := List.mem_of_find?_eq_some hf'
    have hrid : r.requirementId = reqId := by simpa using hpred
    refine ⟨⟨fun hall => absurd hrid (hall r hmem),
      fun herr => by simp [getRequirementDetails, hf] at herr⟩, ?_⟩
    intro d hd
    have hd' : d = ⟨r, findRelatedRequirements c r, getProcessingTips r⟩ := by
      simpa [getRequirementDetails, hf, eq_comm] using hd
    subst hd'
    refine ⟨hrid, hmem, ?_, ?_, ?_, rfl⟩
    · show findRelatedRequirements c r = _
      rw [findRelatedRequirements, hrid]
    · show (findRelatedRequirements c r).length ≤ 3
      rw [findRelatedRequirements]
      simp [List.length_take]
    · intro q hq
      have hq' := List.take_subset 3 _ hq
      have := (List.mem_filter.mp hq').2
      simp only [Bool.and_eq_true, bne_iff_ne, beq_iff_eq] at this
      rw [hrid] at this
      exact ⟨this.1, this.2⟩

/-- C9 witness: a lookup of an id absent from the sample catalog fails with
the not-found error. -/
theorem requirement_details_lookup_witness :
    getRequirementDetails sampleCatalog "ZZZ-999" =
      .error ("Requirement not found: " ++ "ZZZ-999") :=
  (requirement_details_lookup sampleCatalog "ZZZ-999").1.mp (by decide)

/-! Collection lemmas for `applyMatchingRules`. -/

lemma contains_iff_mem {l : List String} {s : String} :
    l.contains s = true ↔ s ∈ l :=
  List.elem_iff

lemma idsOf_append (a b : List MatchedRequirement) :
    idsOf (a ++ b) = idsOf a ++ idsOf b :=
  List.map_append _ a b

lemma any_ids_iff (acc : List MatchedRequirement) (reqId : String) :
    acc.any (fun m => m.req.requirementId == reqId) = true ↔
      reqId ∈ idsOf acc := by
  rw [List.any_eq_true]
  unfold idsOf
  rw [List.mem_map]
  constructor
  · rintro ⟨m, hm, he⟩
    exact ⟨m, hm, by simpa using he⟩
  · rintro ⟨m, hm, he⟩
    exact ⟨m, hm, by simpa using he⟩

lemma findReq_some {A : List Requirement} {reqId : String} {r : Requirement}
    (h : findReq A reqId = some r) : r.requirementId = reqId ∧ r ∈ A :=
  ⟨by simpa using List.find?_some h, List.mem_of_find?_eq_some h⟩

lemma collectIds_eq_append (A : List Requirement) (rid : String) :
    ∀ (l : List String) (acc : List MatchedRequirement),
      ∃ t, collectIds A rid l acc = acc ++ t := by
  intro l
  induction l with
  | nil =>
    intro acc
    refine ⟨[], ?_⟩
    rw [List.append_nil]
    rfl
  | cons reqId rest ih =>
    intro acc
    cases hfr : findReq A reqId with
    | none => simp only [collectIds, hfr]; exact ih acc
    | some r =>
      simp only [collectIds, hfr]
      by_cases hin : acc.any (fun m => m.req.requirementId == reqId) = true
      · rw [if_pos hin]; exact ih acc
      · rw [if_neg hin]
        obtain ⟨t, ht⟩ := ih (acc ++ [⟨r, rid⟩])
        exact ⟨⟨r, rid⟩ :: t, by rw [ht, List.append_assoc]; rfl⟩

lemma collectIds_mem (A : List Requirement) (rid : String) :
    ∀ (l : List String) (acc : List MatchedRequirement)
      (m : MatchedRequirement), m ∈ collectIds A rid l acc →
      m ∈ acc ∨ (m.matchedByRule = rid ∧ m.req.requirementId ∈ l ∧
        findReq A m.req.requirementId = some m.req ∧
        m.req.requirementId ∉ idsOf acc) := by
  intro l
  induction l with
  | nil =>
    intro acc m hm
    exact Or.inl hm
  | cons reqId rest ih =>
    intro acc m hm
    cases hfr : findReq A reqId with
    | none =>
      simp only [collectIds, hfr] at hm
      rcases ih acc m hm with h | ⟨h1, h2, h3, h4⟩
      · exact Or.inl h
      · exact Or.inr ⟨h1, List.mem_cons_of_mem _ h2, h3, h4⟩
    | some r =>
      simp only [collectIds, hfr] at hm
      by_cases hin : acc.any (fun m' => m'.req.requirementId == reqId) = true
      · rw [if_pos hin] at hm
        rcases ih acc m hm with h | ⟨h1, h2, h3, h4⟩
        · exact Or.inl h
        · exact Or.inr ⟨h1, List.mem_cons_of_mem _ h2, h3, h4⟩
      · rw [if_neg hin] at hm
        rcases ih (acc ++ [⟨r, rid⟩]) m hm with h | ⟨h1, h2, h3, h4⟩
        · rcases List.mem_append.mp h with h' | h'
          · exact Or.inl h'
          · have hm' : m = ⟨r, rid⟩ := by simpa using h'
            subst hm'
            obtain ⟨hrid', _⟩ := findReq_some hfr
            refine Or.inr ⟨rfl, ?_, ?_, ?_⟩
            · simp [hrid']
            · show findReq A (⟨r, rid⟩ : MatchedRequirement).req.requirementId
                = some r
              rw [show (⟨r, rid⟩ : MatchedRequirement).req.requirementId =
                reqId from hrid']
              exact hfr
            · show r.requirementId ∉ idsOf acc
              rw [hrid']
              exact fun hc => hin ((any_ids_iff acc reqId).mpr hc)
        · refine Or.inr ⟨h1, List.mem_cons_of_mem _ h2, h3, fun hc => h4 ?_⟩
          rw [idsOf_append]
          exact List.mem_append_left _ hc

lemma collectIds_collects (A : List Requirement) (rid : String) :
    ∀ (l : List String) (acc : List MatchedRequirement) (reqId : String)
      (r : Requirement), reqId ∈ l → findReq A reqId = some r →
      reqId ∈ idsOf (collectIds A rid l acc) := by
  intro l
  induction l with
  | nil => intro acc reqId r h; simp at h
  | cons x rest ih =>
    intro acc reqId r hmem hfr'
    rcases List.mem_cons.mp hmem with rfl | hmem'
    · simp only [collectIds, hfr']
      by_cases hin : acc.any (fun m => m.req.requirementId == reqId) = true
      · rw [if_pos hin]
        have hid : reqId ∈ idsOf acc := (any_ids_iff acc reqId).mp hin
        obtain ⟨t, ht⟩ := collectIds_eq_append A rid rest acc
        rw [ht, idsOf_append]
        exact List.mem_append_left _ hid
      · rw [if_neg hin]
        obtain ⟨t, ht⟩ := collectIds_eq_append A rid rest (acc ++ [⟨r, rid⟩])
        rw [ht, idsOf_append, idsOf_append]
        refine List.mem_append_left _ (List.mem_append_right _ ?_)
        have hx : r.requirementId = reqId := (findReq_some hfr').1
        simp [idsOf, hx]
    · cases hfr2 : findReq A x with
      | none => simp only [collectIds, hfr2]; exact ih acc reqId r hmem' hfr'
      | some r2 =>
        simp only [collectIds, hfr2]
        by_cases hin : acc.any (fun m => m.req.requirementId == x) = true
        · rw [if_pos hin]; exact ih acc reqId r hmem' hfr'
        · rw [if_neg hin]; exact ih _ reqId r hmem' hfr'

lemma collectIds_nodup (A : List Requirement) (rid : String) :
    ∀ (l : List String) (acc : List MatchedRequirement),
      (idsOf acc).Nodup → (idsOf (collectIds A rid l acc)).Nodup := by
  intro l
  induction l with
  | nil => intro acc h; simpa [collectIds] using h
  | cons x rest ih =>
    intro acc h
    cases hfr : findReq A x with
    | none => simp only [collectIds, hfr]; exact ih acc h
    | some r =>
      simp only [collectIds, hfr]
      by_cases hin : acc.any (fun m => m.req.requirementId == x) = true
      · rw [if_pos hin]; exact ih acc h
      · rw [if_neg hin]
        refine ih _ ?_
        rw [idsOf_append]
        have hx : r.requirementId = x := (findReq_some hfr).1
        have hnotin : x ∉ idsOf acc :=
          fun hc => hin ((any_ids_iff acc x).mpr hc)
        simp [idsOf, List.nodup_append, hx, h, List.Disjoint]
        refine ⟨h, fun a ha hax => hnotin ?_⟩
        exact List.mem_map.mpr ⟨a, ha, hax⟩

lemma collectFromRule_eq_append (p : BusinessProfile)
    (A : List Requirement) (rule : Rule) (acc : List MatchedRequirement) :
    ∃ t, collectFromRule p A acc rule = acc ++ t := by
  unfold collectFromRule
  by_cases h : matchesRuleCondition p rule.condition = true
  · rw [if_pos h]; exact collectIds_eq_append A rule.ruleId _ acc
  · rw [if_neg h]; exact ⟨[], by simp⟩

lemma foldl_collect_mem (p : BusinessProfile) (A : List Requirement) :
    ∀ (rules : List Rule) (acc : List MatchedRequirement)
      (m : MatchedRequirement),
      m ∈ rules.foldl (collectFromRule p A) acc →
      m ∈ acc ∨ (m.req.requirementId ∉ idsOf acc ∧
        findReq A m.req.requirementId = some m.req ∧
        firstSelector p rules m.req.requirementId = some m.matchedByRule) := by
  intro rules
  induction rules with
  | nil => intro acc m hm; exact Or.inl (by simpa using hm)
  | cons rule rest ih =>
    intro acc m hm
    rw [List.foldl_cons] at hm
    rcases ih (collectFromRule p A acc rule) m hm with h | ⟨h1, h2, h3⟩
    · unfold collectFromRule at h
      by_cases hc : matchesRuleCondition p rule.condition = true
      · rw [if_pos hc] at h
        rcases collectIds_mem A rule.ruleId rule.applicableRequirements acc
            m h with h' | ⟨g1, g2, g3, g4⟩
        · exact Or.inl h'
        · have hsel : selects p rule m.req.requirementId = true := by
            simp [selects, hc]
            exact g2
          refine Or.inr ⟨g4, g3, ?_⟩
          unfold firstSelector
          rw [List.filter_cons, if_pos hsel]
          simp [g1]
      · rw [if_neg hc] at h; exact Or.inl h
    · have hnotacc : m.req.requirementId ∉ idsOf acc := by
        intro hc'
        apply h1
        obtain ⟨t, ht⟩ := collectFromRule_eq_append p A rule acc
        rw [ht, idsOf_append]
        exact List.mem_append_left _ hc'
      refine Or.inr ⟨hnotacc, h2, ?_⟩
      have hnsel : ¬ selects p rule m.req.requirementId = true := by
        intro hsel
        unfold selects at hsel
        rw [Bool.and_eq_true] at hsel
        obtain ⟨hcnd, hcont'⟩ := hsel
        have hcont : m.req.requirementId ∈ rule.applicableRequirements :=
          contains_iff_mem.mp hcont'
        apply h1
        unfold collectFromRule
        rw [if_pos hcnd]
        exact collectIds_collects A rule.ruleId rule.applicableRequirements
          acc m.req.requirementId m.req hcont h2
      unfold firstSelector at h3 ⊢
      rw [List.filter_cons, if_neg hnsel]
      exact h3

lemma foldl_collect_nodup (p : BusinessProfile) (A : List Requirement) :
    ∀ (rules : List Rule) (acc : List MatchedRequirement),
      (idsOf acc).Nodup →
      (idsOf (rules.foldl (collectFromRule p A) acc)).Nodup := by
  intro rules
  induction rules with
  | nil => intro acc h; simpa using h
  | cons rule rest ih =>
    intro acc h
    rw [List.foldl_cons]
    refine ih _ ?_
    unfold collectFromRule
    by_cases hc : matchesRuleCondition p rule.condition = true
    · rw [if_pos hc]; exact collectIds_nodup A rule.ruleId _ acc h
    · rw [if_neg hc]; exact h

/-! Flat-list facts about `applyMatchingRules`. -/

lemma applyMatchingRules_nodup (p : BusinessProfile) (A : List Requirement)
    (rules : List Rule) : (idsOf (applyMatchingRules p A rules)).Nodup := by
  have h0 : (idsOf (rules.foldl (collectFromRule p A) [])).Nodup :=
    foldl_collect_nodup p A rules [] (by simp [idsOf])
  unfold applyMatchingRules idsOf
  exact List.Nodup.sublist
    (List.Sublist.map _ (List.filter_sublist _)) h0

lemma applyMatchingRules_prov (p : BusinessProfile) (A : List Requirement)
    (rules : List Rule) :
    ∀ m ∈ applyMatchingRules p A rules,
      findReq A m.req.requirementId = some m.req ∧
      firstSelector p rules m.req.requirementId = some m.matchedByRule := by
  intro m hm
  have hm0 : m ∈ rules.foldl (collectFromRule p A) [] :=
    (List.mem_filter.mp (show m ∈ (rules.foldl (collectFromRule p A) []).filter
      (fun x => matchesRequirementConditions p x.req) from hm)).1
  rcases foldl_collect_mem p A rules [] m hm0 with h | ⟨_, h2, h3⟩
  · simp at h
  · exact ⟨h2, h3⟩

lemma rowIds_eq (l : List MatchedRequirement) (k : String) :
    (rowsWithCategory l k).map (fun row => row.requirementId) =
      idsOf (l.filter (fun m => categoryKey m.req == k)) := by
  unfold rowsWithCategory idsOf
  rw [List.map_map]
  rfl

lemma filtered_ids_disjoint (l : List MatchedRequirement) (k1 k2 : String)
    (hk : k1 ≠ k2) (hn : (idsOf l).Nodup) :
    List.Disjoint (idsOf (l.filter (fun m => categoryKey m.req == k1)))
      (idsOf (l.filter (fun m => categoryKey m.req == k2))) := by
  intro a ha1 ha2
  obtain ⟨m1, hm1, hid1⟩ := List.mem_map.mp ha1
  obtain ⟨m2, hm2, hid2⟩ := List.mem_map.mp ha2
  obtain ⟨hm1l, hc1⟩ := List.mem_filter.mp hm1
  obtain ⟨hm2l, hc2⟩ := List.mem_filter.mp hm2
  have heq : m1 = m2 :=
    List.inj_on_of_nodup_map hn hm1l hm2l (hid1.trans hid2.symm)
  apply hk
  have hc1' : categoryKey m1.req = k1 := by simpa using hc1
  have hc2' : categoryKey m2.req = k2 := by simpa using hc2
  rw [← hc1', heq, hc2']

lemma mem_allRows_of_grouping {l : List MatchedRequirement} {row : ReqRow}
    (h : row ∈ allRows (groupRequirementsByAuthority l)) :
    ∃ m ∈ l, row = requirementRow m := by
  rw [grouping_eq_filters] at h
  unfold allRows at h
  simp only [List.mem_append] at h
  have hx : ∀ k, row ∈ rowsWithCategory l k → ∃ m ∈ l, row = requirementRow m := by
    intro k hk
    obtain ⟨m, hm, hrow⟩ := List.mem_map.mp hk
    exact ⟨m, (List.mem_filter.mp hm).1, hrow.symm⟩
  rcases h with ((h | h) | h) | h
  · exact hx "general" h
  · exact hx "police" h
  · exact hx "health" h
  · exact hx "fire" h

/-- C1: over the collected result, each requirementId appears at most once,
and every entry's `matchedByRule` provenance is the ruleId of the first
rule, in catalog rule order, that selects that requirementId (condition
holds and the id is listed); this carries over to every row of the grouped
`MatchResult`. -/
theorem dedup_and_first_rule_provenance (c : Catalog) (p : BusinessProfile)
    (hv : validateBusinessProfile p = .ok ()) :
    findApplicableRequirements c p = .ok (computeMatchResult c p) ∧
    (idsOf (applyMatchingRules p (getAllRequirements c) c.rules)).Nodup ∧
    (∀ m ∈ applyMatchingRules p (getAllRequirements c) c.rules,
      firstSelector p c.rules m.req.requirementId = some m.matchedByRule) ∧
    ((allRows (computeMatchResult c p).requirements).map
      (fun row => row.requirementId)).Nodup ∧
    (∀ row ∈ allRows (computeMatchResult c p).requirements,
      firstSelector p c.rules row.requirementId = some row.matchedByRule) := by
  set A := getAllRequirements c with hA
  set flat := applyMatchingRules p A c.rules with hflat
  have hn : (idsOf flat).Nodup := applyMatchingRules_nodup p A c.rules
  have hprov := applyMatchingRules_prov p A c.rules
  have hreq : (computeMatchResult c p).requirements =
      groupRequirementsByAuthority flat := rfl
  refine ⟨findApplicable_ok hv, hn,
    fun m hm => (hprov m hm).2, ?_, ?_⟩
  · rw [hreq, grouping_eq_filters]
    unfold allRows
    simp only [List.map_append, List.nodup_append,
      List.disjoint_append_left, List.disjoint_append_right, rowIds_eq]
    have hnd : ∀ k, (idsOf (flat.filter
        (fun m => categoryKey m.req == k))).Nodup := by
      intro k
      exact List.Nodup.sublist
        (List.Sublist.map _ (List.filter_sublist _)) hn
    have hdj : ∀ k1 k2, k1 ≠ k2 →
        List.Disjoint (idsOf (flat.filter (fun m => categoryKey m.req == k1)))
          (idsOf (flat.filter (fun m => categoryKey m.req == k2))) :=
      fun k1 k2 hk => filtered_ids_disjoint flat k1 k2 hk hn
    and_intros <;>
      first
        | exact hnd _
        | exact hdj _ _ (by decide)
  · intro row hrow
    rw [hreq] at hrow
    obtain ⟨m, hm, hrowm⟩ := mem_allRows_of_grouping hrow
    subst hrowm
    exact (hprov m hm).2

/-- C1 witness: dedup and provenance at the sample catalog and profile. -/
theorem dedup_and_first_rule_provenance_witness :
    validateBusinessProfile sampleProfile = .ok () ∧
    (findApplicableRequirements sampleCatalog sampleProfile =
        .ok (computeMatchResult sampleCatalog sampleProfile) ∧
      (idsOf (applyMatchingRules sampleProfile
        (getAllRequirements sampleCatalog) sampleCatalog.rules)).Nodup ∧
      (∀ m ∈ applyMatchingRules sampleProfile
          (getAllRequirements sampleCatalog) sampleCatalog.rules,
        firstSelector sampleProfile sampleCatalog.rules
          m.req.requirementId = some m.matchedByRule) ∧
      ((allRows (computeMatchResult sampleCatalog
          sampleProfile).requirements).map
        (fun row => row.requirementId)).Nodup ∧
      (∀ row ∈ allRows (computeMatchResult sampleCatalog
          sampleProfile).requirements,
        firstSelector sampleProfile sampleCatalog.rules
          row.requirementId = some row.matchedByRule)) :=
  ⟨rfl, dedup_and_first_rule_provenance sampleCatalog sampleProfile rfl⟩

/-! Requirement-level filtering. -/

lemma matchesReqCond_appBT {p : BusinessProfile} {r : Requirement}
    (h : matchesRequirementConditions p r = true) {cs : ReqConditions}
    {l : List String} (hcs : r.conditions = some cs)
    (hl : cs.applicableBusinessTypes = some l) :
    optMem p.businessType l = true := by
  have h6 := ((matchesReqCond_some_iff hcs).mp h).2.2.2.2.2
  rw [hl] at h6
  simpa [checkBusinessTypeList] using h6

/-- C4: every requirement in the collected result satisfies its own
requirement-level conditions against the profile, including the
`applicableBusinessTypes` restriction: a rule-selected requirement whose
restriction excludes the profile's businessType cannot appear. -/
theorem requirement_level_filter (c : Catalog) (p : BusinessProfile)
    (hv : validateBusinessProfile p = .ok ()) :
    findApplicableRequirements c p = .ok (computeMatchResult c p) ∧
    ∀ m ∈ applyMatchingRules p (getAllRequirements c) c.rules,
      matchesRequirementConditions p m.req = true ∧
      (∀ cs l bt, m.req.conditions = some cs →
        cs.applicableBusinessTypes = some l → p.businessType = some bt →
        bt ∈ l) := by
  refine ⟨findApplicable_ok hv, fun m hm => ?_⟩
  have hfil : matchesRequirementConditions p m.req = true :=
    (List.mem_filter.mp (show m ∈ (c.rules.foldl
      (collectFromRule p (getAllRequirements c)) []).filter
      (fun x => matchesRequirementConditions p x.req) from hm)).2
  refine ⟨hfil, fun cs l bt hcs hl hbt => ?_⟩
  have hopt := matchesReqCond_appBT hfil hcs hl
  rw [hbt] at hopt
  exact contains_iff_mem.mp (by simpa [optMem] using hopt)

/-- C4 witness: the requirement-level filter at the sample data. -/
theorem requirement_level_filter_witness :
    validateBusinessProfile sampleProfile = .ok () ∧
    (findApplicableRequirements sampleCatalog sampleProfile =
        .ok (computeMatchResult sampleCatalog sampleProfile) ∧
      ∀ m ∈ applyMatchingRules sampleProfile
          (getAllRequirements sampleCatalog) sampleCatalog.rules,
        matchesRequirementConditions sampleProfile m.req = true ∧
        (∀ cs l bt, m.req.conditions = some cs →
          cs.applicableBusinessTypes = some l →
          sampleProfile.businessType = some bt → bt ∈ l)) :=
  ⟨rfl, requirement_level_filter sampleCatalog sampleProfile rfl⟩

/-! Unknown requirement ids referenced by rules. -/

lemma collectIds_skip {A : List Requirement} {reqId : String}
    (hmiss : findReq A reqId = none) (rid : String) :
    ∀ (l : List String) (acc : List MatchedRequirement),
      collectIds A rid l acc =
        collectIds A rid (l.filter (fun i => i != reqId)) acc := by
  intro l
  induction l with
  | nil => intro acc; rfl
  | cons x rest ih =>
    intro acc
    by_cases hx : x = reqId
    · subst hx
      rw [List.filter_cons, if_neg (by simp)]
      simp only [collectIds, hmiss]
      exact ih acc
    · rw [List.filter_cons, if_pos (by simp [hx])]
      cases hfr : findReq A x with
      | none =>
        simp only [collectIds, hfr]
        exact ih acc
      | some r =>
        simp only [collectIds, hfr]
        by_cases hin : acc.any (fun m => m.req.requirementId == x) = true
        · rw [if_pos hin, if_pos hin]
          exact ih acc
        · rw [if_neg hin, if_neg hin]
          exact ih _

lemma foldl_collect_skip (p : BusinessProfile) {A : List Requirement}
    {reqId : String} (hmiss : findReq A reqId = none) :
    ∀ (rules : List Rule) (acc : List MatchedRequirement),
      rules.foldl (collectFromRule p A) acc =
        (rules.map (fun rule => { rule with applicableRequirements :=
          rule.applicableRequirements.filter (fun i => i != reqId) })).foldl
          (collectFromRule p A) acc := by
  intro rules
  induction rules with
  | nil => intro acc; rfl
  | cons rule rest ih =>
    intro acc
    rw [List.map_cons, List.foldl_cons, List.foldl_cons]
    have hcf : collectFromRule p A acc
        { rule with applicableRequirements :=
          rule.applicableRequirements.filter (fun i => i != reqId) } =
        collectFromRule p A acc rule := by
      unfold collectFromRule
      by_cases hc : matchesRuleCondition p rule.condition = true
      · simp only [if_pos hc]
        exact (collectIds_skip hmiss rule.ruleId
          rule.applicableRequirements acc).symm
      · simp only [if_neg hc]
    rw [hcf, ih]

/-- C7: a requirementId referenced by a matching rule but absent from the
catalog is silently skipped: the engine still succeeds, and its result is
the same as if every rule reference to that id were removed. -/
theorem unknown_requirement_skipped (c : Catalog) (p : BusinessProfile)
    (reqId : String) (hv : validateBusinessProfile p = .ok ())
    (hmiss : findReq (getAllRequirements c) reqId = none) :
    findApplicableRequirements c p = .ok (computeMatchResult c p) ∧
    findApplicableRequirements c p =
      findApplicableRequirements (removeRuleReferences c reqId) p := by
  have happ : applyMatchingRules p (getAllRequirements c) c.rules =
      applyMatchingRules p (getAllRequirements (removeRuleReferences c reqId))
        (removeRuleReferences c reqId).rules := by
    show applyMatchingRules p (getAllRequirements c) c.rules =
      applyMatchingRules p (getAllRequirements c) (c.rules.map _)
    unfold applyMatchingRules
    rw [foldl_collect_skip p hmiss c.rules]
  refine ⟨findApplicable_ok hv, ?_⟩
  rw [findApplicable_ok hv, findApplicable_ok
    (c := removeRuleReferences c reqId) hv]
  show Except.ok _ = Except.ok _
  simp only [computeMatchResult]
  rw [← happ]

/-- C7 witness: at the sample catalog, the rule-referenced id "ZZZ-9" has
no catalog record; the engine succeeds and is unchanged by dropping it. -/
theorem unknown_requirement_skipped_witness :
    validateBusinessProfile sampleProfile = .ok () ∧
    findReq (getAllRequirements sampleCatalog) "ZZZ-9" = none ∧
    (findApplicableRequirements sampleCatalog sampleProfile =
        .ok (computeMatchResult sampleCatalog sampleProfile) ∧
      findApplicableRequirements sampleCatalog sampleProfile =
        findApplicableRequirements
          (removeRuleReferences sampleCatalog "ZZZ-9") sampleProfile) :=
  ⟨rfl, by decide,
    unknown_requirement_skipped sampleCatalog sampleProfile "ZZZ-9" rfl
      (by decide)⟩

end Licensing
